import Mathlib

/-!
# Verification of the DMARC aggregate-report summariser

A shallow embedding of the Go sources (`main.go` and the revisions kept
alongside it).  The embedding follows the fullest revision — the one with
per-destination-domain counters (`Report.Add`), the three sort orders
(`ByDate`/`ByDomain`/`ByOrganization`) and the twelve-column emitter
(`Report.Format`).

Modelling conventions:

* Go `int64` / `int` counters are `Int`-valued (each individual XML
  `count` field fits into 64 bits because the decoder rejects anything
  larger).  Two models of the counter update exist side by side:
  `Report.Add` computes with exact integer arithmetic — adequate for the
  additive-equality properties, which hold verbatim under Go's wrapping
  arithmetic as well — while `Report.Add64` wraps every counter addition
  into the signed 64-bit range exactly as the Go `int64` `+=` does, and
  is the reference for the order-sensitive (non-negativity/monotonicity)
  properties, which wrap-around can violate.
* `time.Time` values produced by `time.Unix(sec, 0)` are represented by
  their Unix second `sec : Int`; `Before`/`Equal` on such values coincide
  with `<`/`=` on the seconds.
* The Go map `map[string]*ReportRow` is modelled as an association list in
  first-insertion order; lookup is `List.lookup`, update replaces the
  entry in place.  All properties proved below are insensitive to the
  iteration order, which the Go map deliberately leaves unspecified.
* `log.Fatalf` (process abort) is modelled by `Except.error` with the
  formatted message; a run that would abort is a run whose model returns
  `.error`.
-/

namespace DMARC

/-- One `<record>` row of a DMARC aggregate report (struct
`AggregateReportRecord`). -/
structure AggregateReportRecord where
  SourceIP : String
  HeaderFrom : String
  Count : Int
  Disposition : String
  EvalDKIM : String
  EvalSPF : String
deriving Repr, DecidableEq

/-- One decoded report document (struct `AggregateReport`): the RawDocument
of the data model.  Date-range fields are kept as raw text, exactly as the
decoder stores them. -/
structure AggregateReport where
  Organization : String
  Email : String
  ReportID : String
  DateRangeBegin : String
  DateRangeEnd : String
  Domain : String
  AlignDKIM : String
  AlignSPF : String
  Policy : String
  SubdomainPolicy : String
  Percentage : Int
  Records : List AggregateReportRecord
deriving Repr, DecidableEq

/-- Aggregated counters for one destination domain (struct `ReportRow`).
The seven counter fields are Go `int64`s holding values in
`[-2^63, 2^63)`; see `Report.Add64` for the update with the `int64`
wrap-around made explicit. -/
structure ReportRow where
  HeaderFrom : String
  DKIMPass : Int
  DKIMFail : Int
  SPFPass : Int
  SPFFail : Int
  PolicyNone : Int
  PolicyQuarantine : Int
  PolicyReject : Int
deriving Repr, DecidableEq

/-- One per-document aggregate (struct `Report`).  `DateBegin`/`DateEnd`
are the `time.Time` fields, represented by their Unix seconds. -/
structure Report where
  DateBegin : Int
  DateEnd : Int
  Domains : List (String × ReportRow)
  Organization : String
  Domain : String
deriving Repr, DecidableEq

/-! ## The lenient date conversion (`strings.TrimSpace` + `strconv.Atoi`) -/

/-- The white-space class of Go's `unicode.IsSpace` (what
`strings.TrimSpace` trims). -/
def goIsSpace (c : Char) : Bool :=
  c = '\t' || c = '\n' || c = Char.ofNat 11 || c = Char.ofNat 12 || c = '\r' || c = ' ' ||
  c = Char.ofNat 0x85 || c = Char.ofNat 0xA0 || c = Char.ofNat 0x1680 ||
  (0x2000 ≤ c.toNat && c.toNat ≤ 0x200A) ||
  c = Char.ofNat 0x2028 || c = Char.ofNat 0x2029 ||
  c = Char.ofNat 0x202F || c = Char.ofNat 0x205F || c = Char.ofNat 0x3000

/-- Model of `strings.TrimSpace`. -/
def goTrimSpace (s : String) : String :=
  String.mk (((s.data.dropWhile goIsSpace).reverse.dropWhile goIsSpace).reverse)

/-- Decimal digit test, `'0' ≤ c ≤ '9'`. -/
def isDigit (c : Char) : Bool := 48 ≤ c.toNat && c.toNat ≤ 57

/-- Value of a list of decimal digits, most significant first. -/
def digitsVal (l : List Char) : Nat :=
  l.foldl (fun a c => a * 10 + (c.toNat - 48)) 0

/-- Largest value of Go's 64-bit `int`. -/
def int64Max : Int := 2 ^ 63 - 1

/-- Smallest value of Go's 64-bit `int`. -/
def int64Min : Int := -(2 ^ 63)

/-- The integer a trimmed string denotes in `strconv.Atoi`'s syntax
(optional sign, then at least one decimal digit), `none` on a syntax
error.  Range is not restricted here; `goAtoi` clamps. -/
def strVal (s : String) : Option Int :=
  match s.data with
  | [] => none
  | c :: rest =>
    let neg : Bool := c = '-'
    let ds : List Char := if c = '-' || c = '+' then rest else c :: rest
    if ds = [] || !ds.all isDigit then none
    else some (if neg then -(digitsVal ds : Int) else (digitsVal ds : Int))

/-- The value `strconv.Atoi` returns with its error discarded: `0` on a
syntax error, and the value clamped to the 64-bit `int` range on a range
error (`strconv.ParseInt` returns the maximum-magnitude integer then). -/
def goAtoi (s : String) : Int :=
  match strVal s with
  | none => 0
  | some v => if v > int64Max then int64Max else if v < int64Min then int64Min else v

/-- Model of `(*AggregateReport).DateBegin`: `time.Unix(Atoi(TrimSpace(text)), 0)`,
as its Unix second. -/
def AggregateReport.DateBegin (r : AggregateReport) : Int :=
  goAtoi (goTrimSpace r.DateRangeBegin)

/-- Model of `(*AggregateReport).DateEnd`: same conversion on the end field. -/
def AggregateReport.DateEnd (r : AggregateReport) : Int :=
  goAtoi (goTrimSpace r.DateRangeEnd)

/-! ## The aggregator (`Report.Add`, `parse`) -/

/-- The fresh zero-valued row (`&ReportRow` with only `HeaderFrom` set) created on first
occurrence of a destination domain. -/
def emptyRow (hf : String) : ReportRow :=
  { HeaderFrom := hf, DKIMPass := 0, DKIMFail := 0, SPFPass := 0, SPFFail := 0,
    PolicyNone := 0, PolicyQuarantine := 0, PolicyReject := 0 }

/-- Map update `r.Domains[k] = v` on the association-list model of the Go map:
replace the entry in place, or append a new one. -/
def insertRow : List (String × ReportRow) → String → ReportRow → List (String × ReportRow)
  | [], k, v => [(k, v)]
  | (k', v') :: t, k, v =>
    if k' = k then (k, v) :: t else (k', v') :: insertRow t k v

/-- The `switch rec.Disposition` of `Report.Add`; the `default` branch is
`log.Fatalf("unexpected disposition: %s", ...)`. -/
def applyDisposition (rr : ReportRow) (rec : AggregateReportRecord) : Except String ReportRow :=
  if rec.Disposition = "none" then
    .ok { rr with PolicyNone := rr.PolicyNone + rec.Count }
  else if rec.Disposition = "quarantine" then
    .ok { rr with PolicyQuarantine := rr.PolicyQuarantine + rec.Count }
  else if rec.Disposition = "reject" then
    .ok { rr with PolicyReject := rr.PolicyReject + rec.Count }
  else
    .error ("unexpected disposition: " ++ rec.Disposition)

/-- The `switch rec.EvalDKIM` of `Report.Add`. -/
def applyDKIM (rr : ReportRow) (rec : AggregateReportRecord) : Except String ReportRow :=
  if rec.EvalDKIM = "pass" then
    .ok { rr with DKIMPass := rr.DKIMPass + rec.Count }
  else if rec.EvalDKIM = "fail" then
    .ok { rr with DKIMFail := rr.DKIMFail + rec.Count }
  else
    .error ("unexpected DKIM status: " ++ rec.EvalDKIM)

/-- The `switch rec.EvalSPF` of `Report.Add`. -/
def applySPF (rr : ReportRow) (rec : AggregateReportRecord) : Except String ReportRow :=
  if rec.EvalSPF = "pass" then
    .ok { rr with SPFPass := rr.SPFPass + rec.Count }
  else if rec.EvalSPF = "fail" then
    .ok { rr with SPFFail := rr.SPFFail + rec.Count }
  else
    .error ("unexpected SPF status: " ++ rec.EvalSPF)

/-- Model of `(*Report).Add`: look up (or create) the row keyed by the record's
header-from domain, then run the three `switch`es on it.  `log.Fatalf`
becomes `Except.error`. -/
def Report.Add (r : Report) (rec : AggregateReportRecord) : Except String Report :=
  let rr0 :=
    match r.Domains.lookup rec.HeaderFrom with
    | some rr => rr
    | none => emptyRow rec.HeaderFrom
  match applyDisposition rr0 rec with
  | .error e => .error e
  | .ok rr1 =>
    match applyDKIM rr1 rec with
    | .error e => .error e
    | .ok rr2 =>
      match applySPF rr2 rec with
      | .error e => .error e
      | .ok rr3 => .ok { r with Domains := insertRow r.Domains rec.HeaderFrom rr3 }

/-- The record loop of `parse` (`for _, rec := range fb.Records`):
`Report.Add` on each record in order, stopping at the first
`log.Fatalf`. -/
def addAll (r : Report) : List AggregateReportRecord → Except String Report
  | [] => .ok r
  | rec :: recs =>
    match r.Add rec with
    | .error e => .error e
    | .ok r' => addAll r' recs

/-- The aggregator half of `parse`: build the fresh `Report` from a decoded
document and run the record loop over its records. -/
def parse (fb : AggregateReport) : Except String Report :=
  addAll
    { DateBegin := fb.DateBegin, DateEnd := fb.DateEnd, Domains := [],
      Organization := fb.Organization, Domain := fb.Domain }
    fb.Records

/-! ## Derived notions used by the statements -/

/-- A record whose three tokens are inside their closed enumerations — the
records `Report.Add` accepts without hitting a `log.Fatalf` branch. -/
def validRec (rec : AggregateReportRecord) : Prop :=
  (rec.Disposition = "none" ∨ rec.Disposition = "quarantine" ∨ rec.Disposition = "reject") ∧
  (rec.EvalDKIM = "pass" ∨ rec.EvalDKIM = "fail") ∧
  (rec.EvalSPF = "pass" ∨ rec.EvalSPF = "fail")

instance (rec : AggregateReportRecord) : Decidable (validRec rec) := by
  unfold validRec; infer_instance

/-- The row `Report.Add` starts from: the looked-up row, or the fresh zero
row on first occurrence of the domain. -/
def oldRow (r : Report) (rec : AggregateReportRecord) : ReportRow :=
  (r.Domains.lookup rec.HeaderFrom).getD (emptyRow rec.HeaderFrom)

/-- The row after the three `switch`es of `Report.Add` on a valid record:
each counter grows by the record's count exactly when its token selects
it. -/
def updRow (rr : ReportRow) (rec : AggregateReportRecord) : ReportRow :=
  { rr with
    PolicyNone := rr.PolicyNone + (if rec.Disposition = "none" then rec.Count else 0),
    PolicyQuarantine := rr.PolicyQuarantine + (if rec.Disposition = "quarantine" then rec.Count else 0),
    PolicyReject := rr.PolicyReject + (if rec.Disposition = "reject" then rec.Count else 0),
    DKIMPass := rr.DKIMPass + (if rec.EvalDKIM = "pass" then rec.Count else 0),
    DKIMFail := rr.DKIMFail + (if rec.EvalDKIM = "fail" then rec.Count else 0),
    SPFPass := rr.SPFPass + (if rec.EvalSPF = "pass" then rec.Count else 0),
    SPFFail := rr.SPFFail + (if rec.EvalSPF = "fail" then rec.Count else 0) }

/-- Sum of the three disposition counters of one row. -/
def dispSum (row : ReportRow) : Int :=
  row.PolicyNone + row.PolicyQuarantine + row.PolicyReject

/-- Sum of the three disposition counters over all rows of a counters
mapping. -/
def totalDisp (l : List (String × ReportRow)) : Int :=
  (l.map fun kv => dispSum kv.2).sum

/-- Disposition-counter sum of the row keyed by `d`, zero when no such row
exists. -/
def lookupDispSum (l : List (String × ReportRow)) (d : String) : Int :=
  dispSum ((l.lookup d).getD (emptyRow d))

/-- Sum of the `count` fields of a record list. -/
def countSum (recs : List AggregateReportRecord) : Int :=
  (recs.map fun rec => rec.Count).sum

/-- Pointwise order on the seven counters of a row. -/
def rowLe (a b : ReportRow) : Prop :=
  a.PolicyNone ≤ b.PolicyNone ∧ a.PolicyQuarantine ≤ b.PolicyQuarantine ∧
  a.PolicyReject ≤ b.PolicyReject ∧ a.DKIMPass ≤ b.DKIMPass ∧
  a.DKIMFail ≤ b.DKIMFail ∧ a.SPFPass ≤ b.SPFPass ∧ a.SPFFail ≤ b.SPFFail

/-- All seven counters of a row are non-negative. -/
def rowNonneg (row : ReportRow) : Prop :=
  0 ≤ row.PolicyNone ∧ 0 ≤ row.PolicyQuarantine ∧ 0 ≤ row.PolicyReject ∧
  0 ≤ row.DKIMPass ∧ 0 ≤ row.DKIMFail ∧ 0 ≤ row.SPFPass ∧ 0 ≤ row.SPFFail

/-! ### The bit-accurate `int64` step

`Report.Add` above uses exact integer arithmetic; that abstraction is
sound for the additive-equality properties, which transfer verbatim to
Go's wrapping arithmetic, but it erases the two's-complement wrap-around
of the `int64` counter fields.  The `64`-suffixed definitions below model
the very same switches with each counter addition wrapped exactly as the
Go `+=` on `int64` wraps; they are the reference for every order-sensitive
(non-negativity / monotonicity) property. -/

/-- Two's-complement wrap of an exact sum into the signed 64-bit range
`[-2^63, 2^63)`: the value a Go `int64` addition actually stores. -/
def wrap64 (z : Int) : Int :=
  (z + 2 ^ 63) % 2 ^ 64 - 2 ^ 63

/-- The `switch rec.Disposition` of `Report.Add` with the `+=` wrapping as
`int64` addition does. -/
def applyDisposition64 (rr : ReportRow) (rec : AggregateReportRecord) : Except String ReportRow :=
  if rec.Disposition = "none" then
    .ok { rr with PolicyNone := wrap64 (rr.PolicyNone + rec.Count) }
  else if rec.Disposition = "quarantine" then
    .ok { rr with PolicyQuarantine := wrap64 (rr.PolicyQuarantine + rec.Count) }
  else if rec.Disposition = "reject" then
    .ok { rr with PolicyReject := wrap64 (rr.PolicyReject + rec.Count) }
  else
    .error ("unexpected disposition: " ++ rec.Disposition)

/-- The `switch rec.EvalDKIM` of `Report.Add` with wrapping addition. -/
def applyDKIM64 (rr : ReportRow) (rec : AggregateReportRecord) : Except String ReportRow :=
  if rec.EvalDKIM = "pass" then
    .ok { rr with DKIMPass := wrap64 (rr.DKIMPass + rec.Count) }
  else if rec.EvalDKIM = "fail" then
    .ok { rr with DKIMFail := wrap64 (rr.DKIMFail + rec.Count) }
  else
    .error ("unexpected DKIM status: " ++ rec.EvalDKIM)

/-- The `switch rec.EvalSPF` of `Report.Add` with wrapping addition. -/
def applySPF64 (rr : ReportRow) (rec : AggregateReportRecord) : Except String ReportRow :=
  if rec.EvalSPF = "pass" then
    .ok { rr with SPFPass := wrap64 (rr.SPFPass + rec.Count) }
  else if rec.EvalSPF = "fail" then
    .ok { rr with SPFFail := wrap64 (rr.SPFFail + rec.Count) }
  else
    .error ("unexpected SPF status: " ++ rec.EvalSPF)

/-- Model of `(*Report).Add` with every counter `+=` wrapping exactly as
the Go `int64` addition wraps. -/
def Report.Add64 (r : Report) (rec : AggregateReportRecord) : Except String Report :=
  let rr0 :=
    match r.Domains.lookup rec.HeaderFrom with
    | some rr => rr
    | none => emptyRow rec.HeaderFrom
  match applyDisposition64 rr0 rec with
  | .error e => .error e
  | .ok rr1 =>
    match applyDKIM64 rr1 rec with
    | .error e => .error e
    | .ok rr2 =>
      match applySPF64 rr2 rec with
      | .error e => .error e
      | .ok rr3 => .ok { r with Domains := insertRow r.Domains rec.HeaderFrom rr3 }

/-- The row after the three wrapping `switch`es of `Report.Add64` on a
valid record: the selected counters hold the wrapped sum, the others are
untouched. -/
def updRow64 (rr : ReportRow) (rec : AggregateReportRecord) : ReportRow :=
  { rr with
    PolicyNone :=
      if rec.Disposition = "none" then wrap64 (rr.PolicyNone + rec.Count) else rr.PolicyNone,
    PolicyQuarantine :=
      if rec.Disposition = "quarantine" then wrap64 (rr.PolicyQuarantine + rec.Count)
      else rr.PolicyQuarantine,
    PolicyReject :=
      if rec.Disposition = "reject" then wrap64 (rr.PolicyReject + rec.Count)
      else rr.PolicyReject,
    DKIMPass :=
      if rec.EvalDKIM = "pass" then wrap64 (rr.DKIMPass + rec.Count) else rr.DKIMPass,
    DKIMFail :=
      if rec.EvalDKIM = "fail" then wrap64 (rr.DKIMFail + rec.Count) else rr.DKIMFail,
    SPFPass :=
      if rec.EvalSPF = "pass" then wrap64 (rr.SPFPass + rec.Count) else rr.SPFPass,
    SPFFail :=
      if rec.EvalSPF = "fail" then wrap64 (rr.SPFFail + rec.Count) else rr.SPFFail }

/-- All seven counters of a row are at most `2^63 - 1`.  Applied to
`updRow old rec` (the exact updated row) this says the addition of `rec`
does not overflow any `int64` counter. -/
def rowMax64 (rr : ReportRow) : Prop :=
  rr.PolicyNone ≤ int64Max ∧ rr.PolicyQuarantine ≤ int64Max ∧
  rr.PolicyReject ≤ int64Max ∧ rr.DKIMPass ≤ int64Max ∧
  rr.DKIMFail ≤ int64Max ∧ rr.SPFPass ≤ int64Max ∧ rr.SPFFail ≤ int64Max

instance (rr : ReportRow) : Decidable (rowMax64 rr) := by
  unfold rowMax64; infer_instance

/-- Report states the `int64` aggregator reaches without overflow: a fresh
report (empty counters mapping, as `parse` builds it) followed by any
sequence of successful `Report.Add64` calls whose records carry the data
model's non-negative message count and whose exact updated counters stay
within the `int64` range. -/
inductive Reachable64 : Report → Prop where
  | init (db de : Int) (org dom : String) :
      Reachable64
        { DateBegin := db, DateEnd := de, Domains := [], Organization := org, Domain := dom }
  | step {r : Report} {rec : AggregateReportRecord} {r' : Report} :
      Reachable64 r → 0 ≤ rec.Count → rowMax64 (updRow (oldRow r rec) rec) →
      Report.Add64 r rec = .ok r' → Reachable64 r'

/-! ## The emitter (`Report.Format`) -/

/-- Days-to-civil-date conversion of the proleptic Gregorian calendar (what
Go's `time` package computes for `UTC()`): year, month, day from the count
of days since 1970-01-01. -/
def civilFromDays (z0 : Int) : Int × Nat × Nat :=
  let z : Int := z0 + 719468
  let era : Int := Int.fdiv z 146097
  let doe : Nat := (z - era * 146097).toNat
  let yoe : Nat := (doe - doe / 1460 + doe / 36524 - doe / 146096) / 365
  let doy : Nat := doe - (365 * yoe + yoe / 4 - yoe / 100)
  let mp : Nat := (5 * doy + 2) / 153
  let d : Nat := doy - (153 * mp + 2) / 5 + 1
  let m : Nat := if mp < 10 then mp + 3 else mp - 9
  (((yoe : Int) + era * 400 + (if m ≤ 2 then 1 else 0)), m, d)

/-- The UTC calendar decomposition of a Unix timestamp:
(year, month, day, hour, minute, second), hour on the 24-hour clock. -/
def civilFromSecs (t : Int) : Int × Nat × Nat × Nat × Nat × Nat :=
  let days : Int := Int.fdiv t 86400
  let sod : Nat := (t - days * 86400).toNat
  match civilFromDays days with
  | (y, m, d) => (y, m, d, sod / 3600, sod % 3600 / 60, sod % 60)

/-- Two-digit zero-padded decimal. -/
def pad2 (n : Nat) : String :=
  if n < 10 then "0" ++ toString n else toString n

/-- Four-digit zero-padded decimal (Go's `2006` year field for years
1–9999, the range all timestamps in this development lie in). -/
def pad4 (n : Nat) : String :=
  if n < 10 then "000" ++ toString n
  else if n < 100 then "00" ++ toString n
  else if n < 1000 then "0" ++ toString n
  else toString n

/-- Go's `03` hour field: the hour on the 12-hour clock (noon and midnight
both render as 12), with no AM/PM marker in the layout. -/
def hour12 (h : Nat) : Nat :=
  if h % 12 = 0 then 12 else h % 12

/-- Model of `time.Unix(t, 0).UTC().Format("2006-01-02 03:04:05")` — the `DATEFMT`
layout of `Report.Format`.  Note the hour field of the layout is `03`, the
12-hour clock. -/
def goFormatDATEFMT (t : Int) : String :=
  match civilFromSecs t with
  | (y, m, d, hh, mm, ss) =>
    pad4 y.toNat ++ "-" ++ pad2 m ++ "-" ++ pad2 d ++ " " ++
      pad2 (hour12 hh) ++ ":" ++ pad2 mm ++ ":" ++ pad2 ss

/-- Modelled from the spec: the `YYYY-MM-DD HH:MM:SS` 24-hour-clock UTC
calendar representation the spec describes for the date columns (Go layout
`2006-01-02 15:04:05`).  Used only to compare the spec's words with the
code's `DATEFMT`. -/
def specFormat24 (t : Int) : String :=
  match civilFromSecs t with
  | (y, m, d, hh, mm, ss) =>
    pad4 y.toNat ++ "-" ++ pad2 m ++ "-" ++ pad2 d ++ " " ++
      pad2 hh ++ ":" ++ pad2 mm ++ ":" ++ pad2 ss

/-- Go `fmt.Printf` string/number padding `%Ns`/`%Nd`: right-justify to a
minimum width of `w` runes. -/
def padL (w : Nat) (s : String) : String :=
  if s.length < w then String.mk (List.replicate (w - s.length) ' ') ++ s else s

/-- One data line of `Report.Format`: the twelve comma-separated columns of
the `fmt.Printf` call, in source order. -/
def formatRow (r : Report) (row : ReportRow) : String :=
  padL 19 (goFormatDATEFMT r.DateBegin) ++ "," ++
  padL 19 (goFormatDATEFMT r.DateEnd) ++ "," ++
  padL 22 r.Organization ++ "," ++
  padL 12 r.Domain ++ "," ++
  padL 20 row.HeaderFrom ++ "," ++
  padL 7 (toString row.PolicyNone) ++ "," ++
  padL 7 (toString row.PolicyQuarantine) ++ "," ++
  padL 7 (toString row.PolicyReject) ++ "," ++
  padL 7 (toString row.SPFPass) ++ "," ++
  padL 7 (toString row.DKIMPass) ++ "," ++
  padL 7 (toString row.SPFFail) ++ "," ++
  padL 7 (toString row.DKIMFail)

/-- Model of `(*Report).Format`: one line per entry of the `Domains` map, in the
model's entry order (the Go map's iteration order is unspecified). -/
def Report.Format (r : Report) : List String :=
  r.Domains.map (fun kv => formatRow r kv.2)

/-! ## The sorter and the pipeline (`main`) -/

/-- Model of `ByDate.Less`: date-begin first, organization on date ties. -/
def byDateLess (a b : Report) : Bool :=
  if a.DateBegin = b.DateBegin then decide (a.Organization < b.Organization)
  else decide (a.DateBegin < b.DateBegin)

/-- Model of `ByDomain.Less`: policy domain first, date-begin on ties. -/
def byDomainLess (a b : Report) : Bool :=
  if a.Domain = b.Domain then decide (a.DateBegin < b.DateBegin)
  else decide (a.Domain < b.Domain)

/-- Model of `ByOrganization.Less`: organization first, date-begin on ties. -/
def byOrganizationLess (a b : Report) : Bool :=
  if a.Organization = b.Organization then decide (a.DateBegin < b.DateBegin)
  else decide (a.Organization < b.Organization)

/-- The non-strict order `¬ ByDate.Less b a` that `sort.Sort ByDate{...}`
establishes along its output. -/
def leDate (a b : Report) : Bool := !byDateLess b a

/-- The non-strict order `¬ ByDomain.Less b a`. -/
def leDomain (a b : Report) : Bool := !byDomainLess b a

/-- The non-strict order `¬ ByOrganization.Less b a`. -/
def leOrganization (a b : Report) : Bool := !byOrganizationLess b a

/-- The `switch *sortOrder` of `main`: `sort.Sort` with the corresponding
`Less` — modelled as a merge sort on the non-strict order `¬ Less b a`,
which is exactly the postcondition `sort.Sort` guarantees — and the
`default` branch `log.Fatalf("unknown sort option %q", ...)`. -/
def sortReports (key : String) (l : List Report) : Except String (List Report) :=
  if key = "date" then .ok (l.mergeSort leDate)
  else if key = "domain" then .ok (l.mergeSort leDomain)
  else if key = "organization" then .ok (l.mergeSort leOrganization)
  else .error ("unknown sort option \"" ++ key ++ "\"")

/-- The ingestion stage of `main`: decode and aggregate every stream.  The
consumer goroutine's `for r := range out` drains all of them before the
sort key is examined (`close(out)` happens only after `wg.Wait()`), so the
pipeline is sequenced ingestion-first.  Any `log.Fatalf` is the
`Except.error`. -/
def parseAll : List AggregateReport → Except String (List Report)
  | [] => .ok []
  | doc :: docs =>
    match parse doc with
    | .error e => .error e
    | .ok rep =>
      match parseAll docs with
      | .error e => .error e
      | .ok reps => .ok (rep :: reps)

/-- The observable pipeline of `main`, continued: decode and aggregate
every stream, collect, then sort, then format. -/
def runPipeline (sortKey : String) (docs : List AggregateReport) : Except String (List String) :=
  match parseAll docs with
  | .error e => .error e
  | .ok reports =>
    match sortReports sortKey reports with
    | .error e => .error e
    | .ok sorted => .ok (sorted.map Report.Format).flatten

/-! ## Concrete inputs (the spec's test scenario of §8) -/

/-- Record `{count:10, disposition:none, dkim:pass, spf:pass}` for
`example.com`. -/
def recNone : AggregateReportRecord :=
  { SourceIP := "1.2.3.4", HeaderFrom := "example.com", Count := 10,
    Disposition := "none", EvalDKIM := "pass", EvalSPF := "pass" }

/-- Record `{count:5, disposition:reject, dkim:fail, spf:fail}` for
`example.com`. -/
def recReject : AggregateReportRecord :=
  { SourceIP := "1.2.3.4", HeaderFrom := "example.com", Count := 5,
    Disposition := "reject", EvalDKIM := "fail", EvalSPF := "fail" }

/-- A record whose disposition token is outside the closed enumeration. -/
def badRec : AggregateReportRecord :=
  { SourceIP := "1.2.3.4", HeaderFrom := "x.com", Count := 1,
    Disposition := "invalid", EvalDKIM := "pass", EvalSPF := "pass" }

/-- The spec's concrete document: organization Google, date range
1700000000–1700003600, two records for `example.com`. -/
def docGoogle : AggregateReport :=
  { Organization := "Google", Email := "noreply@google.com", ReportID := "1",
    DateRangeBegin := "1700000000", DateRangeEnd := "1700003600",
    Domain := "google.com", AlignDKIM := "r", AlignSPF := "r",
    Policy := "none", SubdomainPolicy := "none", Percentage := 100,
    Records := [recNone, recReject] }

/-- A document holding the invalid record. -/
def badDoc : AggregateReport :=
  { Organization := "Org", Email := "e", ReportID := "2",
    DateRangeBegin := "0", DateRangeEnd := "0", Domain := "d",
    AlignDKIM := "r", AlignSPF := "r", Policy := "none",
    SubdomainPolicy := "none", Percentage := 100, Records := [badRec] }

/-- A document with zero records. -/
def emptyDoc : AggregateReport :=
  { Organization := "Org", Email := "e", ReportID := "3",
    DateRangeBegin := "1700000000", DateRangeEnd := "1700003600",
    Domain := "d", AlignDKIM := "r", AlignSPF := "r", Policy := "none",
    SubdomainPolicy := "none", Percentage := 100, Records := [] }

/-- The single counters row `docGoogle` aggregates to. -/
def rowGoogle : ReportRow :=
  { HeaderFrom := "example.com", DKIMPass := 10, DKIMFail := 5,
    SPFPass := 10, SPFFail := 5, PolicyNone := 10, PolicyQuarantine := 0,
    PolicyReject := 5 }

/-- The aggregate `parse docGoogle` produces. -/
def reportGoogle : Report :=
  { DateBegin := 1700000000, DateEnd := 1700003600,
    Domains := [("example.com", rowGoogle)], Organization := "Google",
    Domain := "google.com" }

/-- The data line `Report.Format` emits for `reportGoogle`. -/
def lineGoogle : String :=
  "2023-11-14 10:13:20,2023-11-14 11:13:20,                Google,  google.com,         example.com,     10,      0,      5,     10,     10,      5,      5"

/-- The counters row after adding only `recNone` to a fresh report. -/
def rowAfterNone : ReportRow :=
  { HeaderFrom := "example.com", DKIMPass := 10, DKIMFail := 0, SPFPass := 10,
    SPFFail := 0, PolicyNone := 10, PolicyQuarantine := 0, PolicyReject := 0 }

/-- The report reached from a fresh report by adding `recNone`. -/
def reportAfterNone : Report :=
  { DateBegin := 1700000000, DateEnd := 1700003600,
    Domains := [("example.com", rowAfterNone)], Organization := "Google",
    Domain := "google.com" }

/-- A well-formed record with a huge but `int64`-representable count,
5·10^18 (the decoder accepts any count up to `2^63 - 1`). -/
def hugeRec : AggregateReportRecord :=
  { SourceIP := "1.2.3.4", HeaderFrom := "example.com",
    Count := 5000000000000000000, Disposition := "none",
    EvalDKIM := "pass", EvalSPF := "pass" }

/-- The counters row after one `hugeRec`: no counter has overflowed
yet. -/
def rowHuge : ReportRow :=
  { HeaderFrom := "example.com", DKIMPass := 5000000000000000000,
    DKIMFail := 0, SPFPass := 5000000000000000000, SPFFail := 0,
    PolicyNone := 5000000000000000000, PolicyQuarantine := 0,
    PolicyReject := 0 }

/-- The report reached from a fresh report by adding `hugeRec` once. -/
def reportHuge : Report :=
  { DateBegin := 0, DateEnd := 0, Domains := [("example.com", rowHuge)],
    Organization := "Org", Domain := "d" }

/-- The counters row after the second `hugeRec`: the exact sum 10^19
exceeds `2^63 - 1` and the `int64` counters wrap to
`10^19 - 2^64 = -8446744073709551616`. -/
def rowWrapped : ReportRow :=
  { HeaderFrom := "example.com", DKIMPass := -8446744073709551616,
    DKIMFail := 0, SPFPass := -8446744073709551616, SPFFail := 0,
    PolicyNone := -8446744073709551616, PolicyQuarantine := 0,
    PolicyReject := 0 }

/-- The report after the second `hugeRec`, with wrapped-negative
counters. -/
def reportWrapped : Report :=
  { DateBegin := 0, DateEnd := 0, Domains := [("example.com", rowWrapped)],
    Organization := "Org", Domain := "d" }

/-- A document whose date-range fields hold decimal numerals outside the
64-bit `int` range. -/
def overflowDoc : AggregateReport :=
  { Organization := "Org", Email := "e", ReportID := "4",
    DateRangeBegin := "99999999999999999999",
    DateRangeEnd := "-99999999999999999999", Domain := "d",
    AlignDKIM := "r", AlignSPF := "r", Policy := "none",
    SubdomainPolicy := "none", Percentage := 100, Records := [] }

/-! ## Helper lemmas -/

lemma lookup_cons_self (k : String) (v : ReportRow) (t : List (String × ReportRow)) :
    ((k, v) :: t).lookup k = some v := by
  simp [List.lookup]

lemma lookup_cons_ne {k k' : String} (v : ReportRow) (t : List (String × ReportRow))
    (h : k' ≠ k) : ((k, v) :: t).lookup k' = t.lookup k' := by
  have hb : (k' == k) = false := beq_eq_false_iff_ne.mpr h
  simp [List.lookup, hb]

lemma lookup_insertRow_self (l : List (String × ReportRow)) (k : String) (v : ReportRow) :
    (insertRow l k v).lookup k = some v := by
  induction l with
  | nil => simp [insertRow, List.lookup]
  | cons hd t ih =>
    obtain ⟨k', v'⟩ := hd
    by_cases h : k' = k
    · simp [insertRow, h, lookup_cons_self]
    · rw [insertRow, if_neg h, lookup_cons_ne _ _ (fun hk => h hk.symm), ih]

lemma lookup_insertRow_ne (l : List (String × ReportRow)) (k : String) (v : ReportRow)
    (k' : String) (h : k' ≠ k) : (insertRow l k v).lookup k' = l.lookup k' := by
  induction l with
  | nil => rw [insertRow, lookup_cons_ne _ _ h]
  | cons hd t ih =>
    obtain ⟨k₀, v₀⟩ := hd
    by_cases h0 : k₀ = k
    · subst h0
      rw [insertRow, if_pos rfl, lookup_cons_ne _ _ h, lookup_cons_ne _ _ h]
    · by_cases h1 : k' = k₀
      · subst h1
        rw [insertRow, if_neg h0, lookup_cons_self, lookup_cons_self]
      · rw [insertRow, if_neg h0, lookup_cons_ne _ _ h1, lookup_cons_ne _ _ h1, ih]

lemma mem_insertRow (l : List (String × ReportRow)) (k : String) (v : ReportRow) :
    ∀ x ∈ insertRow l k v, x ∈ l ∨ x = (k, v) := by
  induction l with
  | nil =>
    intro x hx
    rw [insertRow] at hx
    exact Or.inr (List.mem_singleton.mp hx)
  | cons hd t ih =>
    obtain ⟨k₀, v₀⟩ := hd
    intro x hx
    by_cases h0 : k₀ = k
    · rw [insertRow, if_pos h0] at hx
      rcases List.mem_cons.mp hx with rfl | hx
      · exact Or.inr rfl
      · exact Or.inl (List.mem_cons_of_mem _ hx)
    · rw [insertRow, if_neg h0] at hx
      rcases List.mem_cons.mp hx with rfl | hx
      · exact Or.inl (List.mem_cons_self _ _)
      · rcases ih x hx with h | h
        · exact Or.inl (List.mem_cons_of_mem _ h)
        · exact Or.inr h

lemma lookup_mem {l : List (String × ReportRow)} {k : String} {v : ReportRow}
    (h : l.lookup k = some v) : (k, v) ∈ l := by
  induction l with
  | nil => simp [List.lookup] at h
  | cons hd t ih =>
    obtain ⟨k₀, v₀⟩ := hd
    by_cases h0 : k = k₀
    · subst h0
      rw [lookup_cons_self] at h
      cases h
      exact List.mem_cons_self _ _
    · rw [lookup_cons_ne _ _ h0] at h
      exact List.mem_cons_of_mem _ (ih h)

lemma add_eq_of_valid (r : Report) (rec : AggregateReportRecord) (h : validRec rec) :
    Report.Add r rec =
      .ok { r with Domains := insertRow r.Domains rec.HeaderFrom (updRow (oldRow r rec) rec) } := by
  obtain ⟨hd, hk, hs⟩ := h
  have hold : (match r.Domains.lookup rec.HeaderFrom with
      | some rr => rr
      | none => emptyRow rec.HeaderFrom) = oldRow r rec := by
    rw [oldRow]
    cases r.Domains.lookup rec.HeaderFrom <;> rfl
  rcases hd with hd | hd | hd <;> rcases hk with hk | hk <;> rcases hs with hs | hs <;>
    simp [Report.Add, applyDisposition, applyDKIM, applySPF, updRow, hd, hk, hs, hold]

lemma add_error_of_invalid (r : Report) (rec : AggregateReportRecord) (h : ¬ validRec rec) :
    ∃ e, Report.Add r rec = .error e := by
  rw [validRec] at h
  push_neg at h
  by_cases hd : rec.Disposition = "none" ∨ rec.Disposition = "quarantine" ∨ rec.Disposition = "reject"
  · by_cases hk : rec.EvalDKIM = "pass" ∨ rec.EvalDKIM = "fail"
    · have hs := h hd hk
      push_neg at hs
      rcases hd with hd | hd | hd <;> rcases hk with hk | hk <;>
        exact ⟨"unexpected SPF status: " ++ rec.EvalSPF,
          by simp [Report.Add, applyDisposition, applyDKIM, applySPF, hd, hk, hs.1, hs.2]⟩
    · push_neg at hk
      rcases hd with hd | hd | hd <;>
        exact ⟨"unexpected DKIM status: " ++ rec.EvalDKIM,
          by simp [Report.Add, applyDisposition, applyDKIM, hd, hk.1, hk.2]⟩
  · push_neg at hd
    exact ⟨"unexpected disposition: " ++ rec.Disposition,
      by simp [Report.Add, applyDisposition, hd.1, hd.2.1, hd.2.2]⟩

lemma add_ok_iff (r : Report) (rec : AggregateReportRecord) :
    (∃ r', Report.Add r rec = .ok r') ↔ validRec rec := by
  constructor
  · rintro ⟨r', hr⟩
    by_contra hv
    obtain ⟨e, he⟩ := add_error_of_invalid r rec hv
    rw [hr] at he
    cases he
  · intro hv
    exact ⟨_, add_eq_of_valid r rec hv⟩

lemma addAll_ok_iff (recs : List AggregateReportRecord) (r : Report) :
    (∃ r', addAll r recs = .ok r') ↔ ∀ rec ∈ recs, validRec rec := by
  induction recs generalizing r with
  | nil => simp [addAll]
  | cons a as ih =>
    by_cases hv : validRec a
    · rw [addAll, add_eq_of_valid r a hv]
      rw [ih]
      simp [hv]
    · obtain ⟨e, he⟩ := add_error_of_invalid r a hv
      rw [addAll, he]
      constructor
      · rintro ⟨r', h⟩
        cases h
      · intro h
        exact absurd (h a (List.mem_cons_self a as)) hv

lemma dispSum_updRow (rr : ReportRow) (rec : AggregateReportRecord)
    (hd : rec.Disposition = "none" ∨ rec.Disposition = "quarantine" ∨ rec.Disposition = "reject") :
    dispSum (updRow rr rec) = dispSum rr + rec.Count := by
  rcases hd with hd | hd | hd <;> simp [dispSum, updRow, hd] <;> ring

lemma dispSum_emptyRow (hf : String) : dispSum (emptyRow hf) = 0 := by
  simp [dispSum, emptyRow]

lemma totalDisp_cons (k : String) (v : ReportRow) (t : List (String × ReportRow)) :
    totalDisp ((k, v) :: t) = dispSum v + totalDisp t := by
  simp [totalDisp]

lemma totalDisp_insertRow (l : List (String × ReportRow)) (k : String) (v : ReportRow) :
    totalDisp (insertRow l k v) =
      totalDisp l + dispSum v - dispSum ((l.lookup k).getD (emptyRow k)) := by
  induction l with
  | nil =>
    simp [insertRow, totalDisp, List.lookup, dispSum, emptyRow]
  | cons hd t ih =>
    obtain ⟨k₀, v₀⟩ := hd
    by_cases h0 : k₀ = k
    · subst h0
      rw [insertRow, if_pos rfl, totalDisp_cons, totalDisp_cons, lookup_cons_self,
        Option.getD_some]
      ring
    · rw [insertRow, if_neg h0, totalDisp_cons, totalDisp_cons,
        lookup_cons_ne _ _ (fun hk => h0 hk.symm), ih]
      ring

lemma lookupDispSum_insertRow (l : List (String × ReportRow)) (k : String) (v : ReportRow)
    (d : String) :
    lookupDispSum (insertRow l k v) d = if d = k then dispSum v else lookupDispSum l d := by
  by_cases h : d = k
  · subst h
    simp [lookupDispSum, lookup_insertRow_self]
  · simp [lookupDispSum, lookup_insertRow_ne _ _ _ _ h, h]

lemma lookupDispSum_eq_oldRow (r : Report) (rec : AggregateReportRecord) :
    lookupDispSum r.Domains rec.HeaderFrom = dispSum (oldRow r rec) := rfl

lemma addAll_sums (recs : List AggregateReportRecord) (r : Report)
    (hv : ∀ rec ∈ recs, validRec rec) :
    ∃ r', addAll r recs = .ok r' ∧
      totalDisp r'.Domains = totalDisp r.Domains + countSum recs ∧
      ∀ d, lookupDispSum r'.Domains d =
        lookupDispSum r.Domains d + countSum (recs.filter fun rec => rec.HeaderFrom == d) := by
  induction recs generalizing r with
  | nil =>
    exact ⟨r, by simp [addAll, countSum]⟩
  | cons a as ih =>
    have hva : validRec a := hv a (List.mem_cons_self a as)
    obtain ⟨r', h1, h2, h3⟩ := ih
      { r with Domains := insertRow r.Domains a.HeaderFrom (updRow (oldRow r a) a) }
      (fun rec hrec => hv rec (List.mem_cons_of_mem a hrec))
    refine ⟨r', ?_, ?_, ?_⟩
    · rw [addAll, add_eq_of_valid r a hva]
      exact h1
    · rw [h2]
      simp only [totalDisp_insertRow, dispSum_updRow _ _ hva.1, countSum, List.map_cons,
        List.sum_cons]
      rw [show dispSum ((r.Domains.lookup a.HeaderFrom).getD (emptyRow a.HeaderFrom)) =
        dispSum (oldRow r a) from rfl]
      ring
    · intro d
      rw [h3 d]
      by_cases hdk : d = a.HeaderFrom
      · rw [lookupDispSum_insertRow, if_pos hdk, dispSum_updRow _ _ hva.1,
          ← lookupDispSum_eq_oldRow]
        have hba : (a.HeaderFrom == d) = true := beq_iff_eq.mpr hdk.symm
        have hflt : (List.filter (fun rec => rec.HeaderFrom == d) (a :: as)) =
            a :: List.filter (fun rec => rec.HeaderFrom == d) as := by
          simp [List.filter_cons, hba]
        rw [hflt, hdk]
        simp [countSum]
        ring
      · rw [lookupDispSum_insertRow, if_neg hdk]
        have hba : (a.HeaderFrom == d) = false :=
          beq_eq_false_iff_ne.mpr (fun h => hdk h.symm)
        have hflt : (List.filter (fun rec => rec.HeaderFrom == d) (a :: as)) =
            List.filter (fun rec => rec.HeaderFrom == d) as := by
          simp [List.filter_cons, hba]
        rw [hflt]

lemma rowLe_refl (rr : ReportRow) : rowLe rr rr := by
  simp [rowLe]

lemma updRow_headerFrom (rr : ReportRow) (rec : AggregateReportRecord) :
    (updRow rr rec).HeaderFrom = rr.HeaderFrom := rfl

lemma updRow_mono (rr : ReportRow) (rec : AggregateReportRecord) (hc : 0 ≤ rec.Count) :
    rowLe rr (updRow rr rec) := by
  unfold rowLe updRow
  refine ⟨?_, ?_, ?_, ?_, ?_, ?_, ?_⟩ <;> dsimp only <;> split_ifs <;> omega

lemma updRow_nonneg (rr : ReportRow) (rec : AggregateReportRecord) (hc : 0 ≤ rec.Count)
    (h : rowNonneg rr) : rowNonneg (updRow rr rec) := by
  unfold rowNonneg updRow at *
  obtain ⟨h1, h2, h3, h4, h5, h6, h7⟩ := h
  refine ⟨?_, ?_, ?_, ?_, ?_, ?_, ?_⟩ <;> dsimp only <;> split_ifs <;> omega

lemma rowNonneg_emptyRow (hf : String) : rowNonneg (emptyRow hf) := by
  simp [rowNonneg, emptyRow]

lemma oldRow_nonneg (r : Report) (rec : AggregateReportRecord)
    (hnn : ∀ kv ∈ r.Domains, rowNonneg kv.2) : rowNonneg (oldRow r rec) := by
  rw [oldRow]
  cases hL : r.Domains.lookup rec.HeaderFrom with
  | none => exact rowNonneg_emptyRow _
  | some v => exact hnn (rec.HeaderFrom, v) (lookup_mem hL)

lemma add_mono (r : Report) (rec : AggregateReportRecord) (r' : Report)
    (hc : 0 ≤ rec.Count) (hadd : Report.Add r rec = .ok r') :
    ∀ k, rowLe ((r.Domains.lookup k).getD (emptyRow k))
      ((r'.Domains.lookup k).getD (emptyRow k)) := by
  have hv : validRec rec := (add_ok_iff r rec).mp ⟨r', hadd⟩
  rw [add_eq_of_valid r rec hv] at hadd
  cases hadd
  intro k
  dsimp only
  by_cases hk : k = rec.HeaderFrom
  · subst hk
    rw [lookup_insertRow_self, Option.getD_some]
    exact updRow_mono _ rec hc
  · rw [lookup_insertRow_ne _ _ _ _ hk]
    exact rowLe_refl _

lemma add_nonneg (r : Report) (rec : AggregateReportRecord) (r' : Report)
    (hc : 0 ≤ rec.Count) (hadd : Report.Add r rec = .ok r')
    (hnn : ∀ kv ∈ r.Domains, rowNonneg kv.2) :
    ∀ kv ∈ r'.Domains, rowNonneg kv.2 := by
  have hv : validRec rec := (add_ok_iff r rec).mp ⟨r', hadd⟩
  rw [add_eq_of_valid r rec hv] at hadd
  cases hadd
  intro kv hkv
  rcases mem_insertRow _ _ _ kv hkv with h | h
  · exact hnn kv h
  · subst h
    exact updRow_nonneg _ rec hc (oldRow_nonneg r rec hnn)

lemma int64Min_le_int64Max : int64Min ≤ int64Max := by decide

lemma wrap64_eq_self (z : Int) (h1 : int64Min ≤ z) (h2 : z ≤ int64Max) :
    wrap64 z = z := by
  rw [int64Min] at h1
  rw [int64Max] at h2
  have e1 : 0 ≤ z + 2 ^ 63 := by omega
  have e2 : z + 2 ^ 63 < 2 ^ 64 := by
    have : (2 : Int) ^ 64 = 2 ^ 63 + 2 ^ 63 := by norm_num
    omega
  rw [wrap64, Int.emod_eq_of_lt e1 e2]
  ring

lemma add64_eq_of_valid (r : Report) (rec : AggregateReportRecord) (h : validRec rec) :
    Report.Add64 r rec =
      .ok { r with
        Domains := insertRow r.Domains rec.HeaderFrom (updRow64 (oldRow r rec) rec) } := by
  obtain ⟨hd, hk, hs⟩ := h
  have hold : (match r.Domains.lookup rec.HeaderFrom with
      | some rr => rr
      | none => emptyRow rec.HeaderFrom) = oldRow r rec := by
    rw [oldRow]
    cases r.Domains.lookup rec.HeaderFrom <;> rfl
  rcases hd with hd | hd | hd <;> rcases hk with hk | hk <;> rcases hs with hs | hs <;>
    simp [Report.Add64, applyDisposition64, applyDKIM64, applySPF64, updRow64, hd, hk, hs, hold]

lemma add64_eq_add_of_invalid (r : Report) (rec : AggregateReportRecord)
    (h : ¬ validRec rec) : Report.Add64 r rec = Report.Add r rec := by
  rw [validRec] at h
  push_neg at h
  by_cases hd : rec.Disposition = "none" ∨ rec.Disposition = "quarantine" ∨
      rec.Disposition = "reject"
  · by_cases hk : rec.EvalDKIM = "pass" ∨ rec.EvalDKIM = "fail"
    · have hs := h hd hk
      push_neg at hs
      rcases hd with hd | hd | hd <;> rcases hk with hk | hk <;>
        simp [Report.Add64, Report.Add, applyDisposition64, applyDisposition,
          applyDKIM64, applyDKIM, applySPF64, applySPF, hd, hk, hs.1, hs.2]
    · push_neg at hk
      rcases hd with hd | hd | hd <;>
        simp [Report.Add64, Report.Add, applyDisposition64, applyDisposition,
          applyDKIM64, applyDKIM, hd, hk.1, hk.2]
  · push_neg at hd
    simp [Report.Add64, Report.Add, applyDisposition64, applyDisposition,
      hd.1, hd.2.1, hd.2.2]

lemma updRow64_eq_updRow (rr : ReportRow) (rec : AggregateReportRecord)
    (hc : 0 ≤ rec.Count) (hnn : rowNonneg rr)
    (hmax : rowMax64 (updRow rr rec)) :
    updRow64 rr rec = updRow rr rec := by
  obtain ⟨h1, h2, h3, h4, h5, h6, h7⟩ := hnn
  obtain ⟨m1, m2, m3, m4, m5, m6, m7⟩ := hmax
  rw [updRow] at m1 m2 m3 m4 m5 m6 m7
  dsimp only at m1 m2 m3 m4 m5 m6 m7
  have hmin : int64Min ≤ (0 : Int) := by decide
  have e1 : (if rec.Disposition = "none" then wrap64 (rr.PolicyNone + rec.Count)
      else rr.PolicyNone) =
      rr.PolicyNone + (if rec.Disposition = "none" then rec.Count else 0) := by
    split_ifs with h
    · exact wrap64_eq_self _ (le_trans hmin (Int.add_nonneg h1 hc))
        (by rw [if_pos h] at m1; exact m1)
    · exact (add_zero _).symm
  have e2 : (if rec.Disposition = "quarantine" then wrap64 (rr.PolicyQuarantine + rec.Count)
      else rr.PolicyQuarantine) =
      rr.PolicyQuarantine + (if rec.Disposition = "quarantine" then rec.Count else 0) := by
    split_ifs with h
    · exact wrap64_eq_self _ (le_trans hmin (Int.add_nonneg h2 hc))
        (by rw [if_pos h] at m2; exact m2)
    · exact (add_zero _).symm
  have e3 : (if rec.Disposition = "reject" then wrap64 (rr.PolicyReject + rec.Count)
      else rr.PolicyReject) =
      rr.PolicyReject + (if rec.Disposition = "reject" then rec.Count else 0) := by
    split_ifs with h
    · exact wrap64_eq_self _ (le_trans hmin (Int.add_nonneg h3 hc))
        (by rw [if_pos h] at m3; exact m3)
    · exact (add_zero _).symm
  have e4 : (if rec.EvalDKIM = "pass" then wrap64 (rr.DKIMPass + rec.Count)
      else rr.DKIMPass) =
      rr.DKIMPass + (if rec.EvalDKIM = "pass" then rec.Count else 0) := by
    split_ifs with h
    · exact wrap64_eq_self _ (le_trans hmin (Int.add_nonneg h4 hc))
        (by rw [if_pos h] at m4; exact m4)
    · exact (add_zero _).symm
  have e5 : (if rec.EvalDKIM = "fail" then wrap64 (rr.DKIMFail + rec.Count)
      else rr.DKIMFail) =
      rr.DKIMFail + (if rec.EvalDKIM = "fail" then rec.Count else 0) := by
    split_ifs with h
    · exact wrap64_eq_self _ (le_trans hmin (Int.add_nonneg h5 hc))
        (by rw [if_pos h] at m5; exact m5)
    · exact (add_zero _).symm
  have e6 : (if rec.EvalSPF = "pass" then wrap64 (rr.SPFPass + rec.Count)
      else rr.SPFPass) =
      rr.SPFPass + (if rec.EvalSPF = "pass" then rec.Count else 0) := by
    split_ifs with h
    · exact wrap64_eq_self _ (le_trans hmin (Int.add_nonneg h6 hc))
        (by rw [if_pos h] at m6; exact m6)
    · exact (add_zero _).symm
  have e7 : (if rec.EvalSPF = "fail" then wrap64 (rr.SPFFail + rec.Count)
      else rr.SPFFail) =
      rr.SPFFail + (if rec.EvalSPF = "fail" then rec.Count else 0) := by
    split_ifs with h
    · exact wrap64_eq_self _ (le_trans hmin (Int.add_nonneg h7 hc))
        (by rw [if_pos h] at m7; exact m7)
    · exact (add_zero _).symm
  rw [updRow64, updRow, e1, e2, e3, e4, e5, e6, e7]

lemma add64_eq_add (r : Report) (rec : AggregateReportRecord)
    (hc : 0 ≤ rec.Count) (hnn : rowNonneg (oldRow r rec))
    (hmax : rowMax64 (updRow (oldRow r rec) rec)) :
    Report.Add64 r rec = Report.Add r rec := by
  by_cases hv : validRec rec
  · rw [add64_eq_of_valid r rec hv, add_eq_of_valid r rec hv,
      updRow64_eq_updRow _ _ hc hnn hmax]
  · exact add64_eq_add_of_invalid r rec hv

lemma reachable64_nonneg (r : Report) (h : Reachable64 r) :
    ∀ kv ∈ r.Domains, rowNonneg kv.2 := by
  induction h with
  | init db de org dom => intro kv hkv; cases hkv
  | step hr hc hmax hadd ih =>
    rw [add64_eq_add _ _ hc (oldRow_nonneg _ _ ih) hmax] at hadd
    exact add_nonneg _ _ _ hc hadd ih

lemma add_keyed (r : Report) (rec : AggregateReportRecord) (r' : Report)
    (hadd : Report.Add r rec = .ok r')
    (hk : ∀ kv ∈ r.Domains, (kv.2).HeaderFrom = kv.1) :
    ∀ kv ∈ r'.Domains, (kv.2).HeaderFrom = kv.1 := by
  have hv : validRec rec := (add_ok_iff r rec).mp ⟨r', hadd⟩
  rw [add_eq_of_valid r rec hv] at hadd
  cases hadd
  intro kv hkv
  rcases mem_insertRow _ _ _ kv hkv with h | h
  · exact hk kv h
  · subst h
    rw [updRow_headerFrom, oldRow]
    cases hL : r.Domains.lookup rec.HeaderFrom with
    | none => rfl
    | some v => exact hk (rec.HeaderFrom, v) (lookup_mem hL)

lemma addAll_keyed (recs : List AggregateReportRecord) (r r' : Report)
    (h : addAll r recs = .ok r')
    (hk : ∀ kv ∈ r.Domains, (kv.2).HeaderFrom = kv.1) :
    ∀ kv ∈ r'.Domains, (kv.2).HeaderFrom = kv.1 := by
  induction recs generalizing r with
  | nil =>
    rw [addAll] at h
    cases h
    exact hk
  | cons a as ih =>
    rw [addAll] at h
    cases hA : r.Add a with
    | error e => rw [hA] at h; cases h
    | ok r₁ =>
      rw [hA] at h
      exact ih r₁ h (add_keyed r a r₁ hA hk)

lemma parseAll_ok (docs : List AggregateReport)
    (hv : ∀ doc ∈ docs, ∀ rec ∈ doc.Records, validRec rec) :
    ∃ reps, parseAll docs = .ok reps := by
  induction docs with
  | nil => exact ⟨[], rfl⟩
  | cons doc docs ih =>
    obtain ⟨rep, hrep⟩ := (addAll_ok_iff doc.Records _).mpr (hv doc (List.mem_cons_self _ _))
    obtain ⟨reps, hreps⟩ := ih fun d hd => hv d (List.mem_cons_of_mem _ hd)
    refine ⟨rep :: reps, ?_⟩
    rw [parseAll, show parse doc = .ok rep from hrep, hreps]

lemma lex_not_lt_iff {α β : Type} [LinearOrder α] [LinearOrder β]
    {x₁ y₁ : α} {x₂ y₂ : β} :
    ¬(y₁ < x₁ ∨ (y₁ = x₁ ∧ y₂ < x₂)) ↔ (x₁ < y₁ ∨ (x₁ = y₁ ∧ x₂ ≤ y₂)) := by
  constructor
  · intro h
    push_neg at h
    rcases lt_trichotomy x₁ y₁ with h1 | h1 | h1
    · exact Or.inl h1
    · exact Or.inr ⟨h1, h.2 h1.symm⟩
    · exact absurd h1 (not_lt.mpr h.1)
  · intro h
    push_neg
    rcases h with h | ⟨h1, h2⟩
    · exact ⟨le_of_lt h, fun he => absurd (he ▸ h) (lt_irrefl _)⟩
    · exact ⟨le_of_eq h1, fun _ => h2⟩

lemma lexLe_trans {α β : Type} [LinearOrder α] [LinearOrder β]
    {x₁ y₁ z₁ : α} {x₂ y₂ z₂ : β}
    (h1 : x₁ < y₁ ∨ (x₁ = y₁ ∧ x₂ ≤ y₂)) (h2 : y₁ < z₁ ∨ (y₁ = z₁ ∧ y₂ ≤ z₂)) :
    x₁ < z₁ ∨ (x₁ = z₁ ∧ x₂ ≤ z₂) := by
  rcases h1 with h1 | ⟨h1a, h1b⟩ <;> rcases h2 with h2 | ⟨h2a, h2b⟩
  · exact Or.inl (lt_trans h1 h2)
  · exact Or.inl (h2a ▸ h1)
  · exact Or.inl (h1a ▸ h2)
  · exact Or.inr ⟨h1a.trans h2a, le_trans h1b h2b⟩

lemma lexLe_total {α β : Type} [LinearOrder α] [LinearOrder β]
    (x₁ y₁ : α) (x₂ y₂ : β) :
    (x₁ < y₁ ∨ (x₁ = y₁ ∧ x₂ ≤ y₂)) ∨ (y₁ < x₁ ∨ (y₁ = x₁ ∧ y₂ ≤ x₂)) := by
  rcases lt_trichotomy x₁ y₁ with h | h | h
  · exact Or.inl (Or.inl h)
  · rcases le_total x₂ y₂ with h2 | h2
    · exact Or.inl (Or.inr ⟨h, h2⟩)
    · exact Or.inr (Or.inr ⟨h.symm, h2⟩)
  · exact Or.inr (Or.inl h)

lemma byDateLess_iff (a b : Report) :
    byDateLess a b = true ↔
      (a.DateBegin < b.DateBegin ∨ (a.DateBegin = b.DateBegin ∧ a.Organization < b.Organization)) := by
  rw [byDateLess]
  by_cases h : a.DateBegin = b.DateBegin <;> simp [h]

lemma byDomainLess_iff (a b : Report) :
    byDomainLess a b = true ↔
      (a.Domain < b.Domain ∨ (a.Domain = b.Domain ∧ a.DateBegin < b.DateBegin)) := by
  rw [byDomainLess]
  by_cases h : a.Domain = b.Domain <;> simp [h]

lemma byOrganizationLess_iff (a b : Report) :
    byOrganizationLess a b = true ↔
      (a.Organization < b.Organization ∨
        (a.Organization = b.Organization ∧ a.DateBegin < b.DateBegin)) := by
  rw [byOrganizationLess]
  by_cases h : a.Organization = b.Organization <;> simp [h]

lemma leDate_iff (a b : Report) :
    leDate a b = true ↔
      (a.DateBegin < b.DateBegin ∨
        (a.DateBegin = b.DateBegin ∧ a.Organization ≤ b.Organization)) := by
  rw [leDate, Bool.not_eq_true', ← Bool.not_eq_true, byDateLess_iff]
  exact lex_not_lt_iff

lemma leDomain_iff (a b : Report) :
    leDomain a b = true ↔
      (a.Domain < b.Domain ∨ (a.Domain = b.Domain ∧ a.DateBegin ≤ b.DateBegin)) := by
  rw [leDomain, Bool.not_eq_true', ← Bool.not_eq_true, byDomainLess_iff]
  exact lex_not_lt_iff

lemma leOrganization_iff (a b : Report) :
    leOrganization a b = true ↔
      (a.Organization < b.Organization ∨
        (a.Organization = b.Organization ∧ a.DateBegin ≤ b.DateBegin)) := by
  rw [leOrganization, Bool.not_eq_true', ← Bool.not_eq_true, byOrganizationLess_iff]
  exact lex_not_lt_iff

lemma leDate_trans : ∀ a b c : Report, leDate a b → leDate b c → leDate a c := by
  intro a b c hab hbc
  rw [leDate_iff] at hab hbc ⊢
  exact lexLe_trans hab hbc

lemma leDate_total : ∀ a b : Report, leDate a b || leDate b a := by
  intro a b
  rw [Bool.or_eq_true, leDate_iff, leDate_iff]
  exact lexLe_total _ _ _ _

lemma leDomain_trans : ∀ a b c : Report, leDomain a b → leDomain b c → leDomain a c := by
  intro a b c hab hbc
  rw [leDomain_iff] at hab hbc ⊢
  exact lexLe_trans hab hbc

lemma leDomain_total : ∀ a b : Report, leDomain a b || leDomain b a := by
  intro a b
  rw [Bool.or_eq_true, leDomain_iff, leDomain_iff]
  exact lexLe_total _ _ _ _

lemma leOrganization_trans :
    ∀ a b c : Report, leOrganization a b → leOrganization b c → leOrganization a c := by
  intro a b c hab hbc
  rw [leOrganization_iff] at hab hbc ⊢
  exact lexLe_trans hab hbc

lemma leOrganization_total : ∀ a b : Report, leOrganization a b || leOrganization b a := by
  intro a b
  rw [Bool.or_eq_true, leOrganization_iff, leOrganization_iff]
  exact lexLe_total _ _ _ _

/-- C2: adding a record with valid tokens increments, in the row keyed by
the record's header-from domain (created on first occurrence), exactly the
counters selected by its disposition, DKIM and SPF tokens, each by the
record's count; every other counter of that row and every other row is
unaffected. -/
theorem c2_add_increments (r : Report) (rec : AggregateReportRecord) (h : validRec rec) :
    ∃ r' row, Report.Add r rec = .ok r' ∧
      r'.Domains.lookup rec.HeaderFrom = some row ∧
      row.PolicyNone = (oldRow r rec).PolicyNone +
        (if rec.Disposition = "none" then rec.Count else 0) ∧
      row.PolicyQuarantine = (oldRow r rec).PolicyQuarantine +
        (if rec.Disposition = "quarantine" then rec.Count else 0) ∧
      row.PolicyReject = (oldRow r rec).PolicyReject +
        (if rec.Disposition = "reject" then rec.Count else 0) ∧
      row.DKIMPass = (oldRow r rec).DKIMPass +
        (if rec.EvalDKIM = "pass" then rec.Count else 0) ∧
      row.DKIMFail = (oldRow r rec).DKIMFail +
        (if rec.EvalDKIM = "fail" then rec.Count else 0) ∧
      row.SPFPass = (oldRow r rec).SPFPass +
        (if rec.EvalSPF = "pass" then rec.Count else 0) ∧
      row.SPFFail = (oldRow r rec).SPFFail +
        (if rec.EvalSPF = "fail" then rec.Count else 0) ∧
      ∀ k, k ≠ rec.HeaderFrom → r'.Domains.lookup k = r.Domains.lookup k := by
  refine ⟨_, updRow (oldRow r rec) rec, add_eq_of_valid r rec h, ?_,
    rfl, rfl, rfl, rfl, rfl, rfl, rfl, ?_⟩
  · dsimp only
    exact lookup_insertRow_self _ _ _
  · intro k hk
    dsimp only
    exact lookup_insertRow_ne _ _ _ _ hk

/-- C3: for a document whose records all carry valid tokens, the sum of
the three disposition counters over all rows of the aggregate equals the
sum of the count fields of all records, and the row of each destination
domain carries exactly the summed counts of that domain's records. -/
theorem c3_disposition_sums (doc : AggregateReport)
    (h : ∀ rec ∈ doc.Records, validRec rec) :
    ∃ rep, parse doc = .ok rep ∧
      totalDisp rep.Domains = countSum doc.Records ∧
      ∀ d, lookupDispSum rep.Domains d =
        countSum (doc.Records.filter fun rec => rec.HeaderFrom == d) := by
  obtain ⟨r', h1, h2, h3⟩ := addAll_sums doc.Records
    { DateBegin := doc.DateBegin, DateEnd := doc.DateEnd, Domains := [],
      Organization := doc.Organization, Domain := doc.Domain } h
  refine ⟨r', by rw [parse]; exact h1, ?_, ?_⟩
  · rw [h2]
    simp [totalDisp]
  · intro d
    rw [h3 d]
    simp [lookupDispSum, List.lookup, dispSum_emptyRow]

/-- C4: aggregation of a document fails (the `log.Fatalf` abort) exactly
when some record carries a disposition token outside
none/quarantine/reject, a DKIM token outside pass/fail, or an SPF token
outside pass/fail; with only valid tokens it never fails. -/
theorem c4_validation_abort (doc : AggregateReport) :
    (∃ e, parse doc = .error e) ↔ ∃ rec ∈ doc.Records, ¬ validRec rec := by
  constructor
  · rintro ⟨e, he⟩
    by_contra hx
    push_neg at hx
    obtain ⟨r', hr⟩ := (addAll_ok_iff doc.Records _).mpr hx
    rw [parse] at he
    rw [hr] at he
    cases he
  · rintro ⟨rec, hmem, hrec⟩
    cases hp : parse doc with
    | error e => exact ⟨e, rfl⟩
    | ok r' =>
      rw [parse] at hp
      exact absurd ((addAll_ok_iff doc.Records _).mp ⟨r', hp⟩ rec hmem) hrec

/-- C7 counterexample: the `int64` counters wrap.  `hugeRec` carries the
representable count 5·10^18; adding it to a fresh report is fine, but
adding it a second time to the same destination domain makes the exact
sum 10^19 exceed `2^63 - 1`, and the stored `PolicyNone` (and `DKIMPass`,
`SPFPass`) counter wraps to -8446744073709551616: on this reachable state
the addition of a non-negative-count record makes a counter decrease and
go negative. -/
theorem c7_counterexample :
    (0 : Int) ≤ hugeRec.Count ∧
    Report.Add64
      { DateBegin := 0, DateEnd := 0, Domains := [], Organization := "Org",
        Domain := "d" } hugeRec = .ok reportHuge ∧
    Report.Add64 reportHuge hugeRec = .ok reportWrapped ∧
    rowWrapped.PolicyNone < rowHuge.PolicyNone ∧
    rowWrapped.PolicyNone < 0 :=
  ⟨by decide, by rfl, by rfl, by decide, by decide⟩

/-- C7 (amended): as long as no addition overflows the signed 64-bit
counters, every counter is non-negative at all times and never decreases:
on every state the `int64` aggregator reaches without overflow from
records with non-negative counts, all counters of all rows are
non-negative, and any further non-overflowing addition of a
non-negative-count record leaves every counter of every row at least as
large as before.  (With an overflowing addition a counter wraps negative
and decreases — see the counterexample.) -/
theorem c7_int64_monotone (r : Report) (h : Reachable64 r) :
    (∀ kv ∈ r.Domains, rowNonneg kv.2) ∧
    ∀ rec r', 0 ≤ rec.Count → rowMax64 (updRow (oldRow r rec) rec) →
      Report.Add64 r rec = .ok r' →
      ∀ k, rowLe ((r.Domains.lookup k).getD (emptyRow k))
        ((r'.Domains.lookup k).getD (emptyRow k)) := by
  have hnn := reachable64_nonneg r h
  refine ⟨hnn, ?_⟩
  intro rec r' hc hmax hadd
  rw [add64_eq_add _ _ hc (oldRow_nonneg _ _ hnn) hmax] at hadd
  exact add_mono r rec r' hc hadd

/-- C8: a document with zero records aggregates to a report with an empty
counters mapping, for which the emitter writes no data line. -/
theorem c8_empty_document (doc : AggregateReport) (h : doc.Records = []) :
    ∃ rep, parse doc = .ok rep ∧ rep.Domains = [] ∧ Report.Format rep = [] := by
  have hrep : parse doc = .ok
      { DateBegin := doc.DateBegin, DateEnd := doc.DateEnd, Domains := [],
        Organization := doc.Organization, Domain := doc.Domain } := by
    rw [parse, h, addAll]
  exact ⟨_, hrep, rfl, rfl⟩

/-- C10: in every aggregate the `parse` loop produces, the row stored
under a destination-domain key records that same domain in its
`HeaderFrom` field, so the destination-domain column the emitter prints
always equals the aggregation key. -/
theorem c10_rows_keyed (doc : AggregateReport) (rep : Report) (h : parse doc = .ok rep) :
    (∀ k row, rep.Domains.lookup k = some row → row.HeaderFrom = k) ∧
    ∀ kv ∈ rep.Domains, padL 20 kv.2.HeaderFrom = padL 20 kv.1 := by
  rw [parse] at h
  have hkeyed := addAll_keyed doc.Records _ rep h (by intro kv hkv; cases hkv)
  refine ⟨?_, ?_⟩
  · intro k row hlk
    exact hkeyed (k, row) (lookup_mem hlk)
  · intro kv hkv
    rw [hkeyed kv hkv]

lemma leDate_imp {a b : Report} (hab : leDate a b = true) :
    a.DateBegin ≤ b.DateBegin ∧
      (a.DateBegin = b.DateBegin → a.Organization ≤ b.Organization) := by
  rw [leDate_iff] at hab
  rcases hab with hab | ⟨h1, h2⟩
  · exact ⟨le_of_lt hab, fun he => absurd (he ▸ hab) (lt_irrefl _)⟩
  · exact ⟨le_of_eq h1, fun _ => h2⟩

lemma leDomain_imp {a b : Report} (hab : leDomain a b = true) :
    a.Domain ≤ b.Domain ∧ (a.Domain = b.Domain → a.DateBegin ≤ b.DateBegin) := by
  rw [leDomain_iff] at hab
  rcases hab with hab | ⟨h1, h2⟩
  · exact ⟨le_of_lt hab, fun he => absurd (he ▸ hab) (lt_irrefl _)⟩
  · exact ⟨le_of_eq h1, fun _ => h2⟩

lemma leOrganization_imp {a b : Report} (hab : leOrganization a b = true) :
    a.Organization ≤ b.Organization ∧
      (a.Organization = b.Organization → a.DateBegin ≤ b.DateBegin) := by
  rw [leOrganization_iff] at hab
  rcases hab with hab | ⟨h1, h2⟩
  · exact ⟨le_of_lt hab, fun he => absurd (he ▸ hab) (lt_irrefl _)⟩
  · exact ⟨le_of_eq h1, fun _ => h2⟩

/-- C5: the sorter's output is a permutation of its input; under key
`date` it is non-decreasing in date-begin with equal date-begins in
non-decreasing organization order, and under keys `domain` and
`organization` it is non-decreasing in the respective column with ties in
non-decreasing date-begin order. -/
theorem c5_sort_orders (l : List Report) :
    (∃ sl, sortReports "date" l = .ok sl ∧ sl.Perm l ∧
      sl.Pairwise fun a b => a.DateBegin ≤ b.DateBegin ∧
        (a.DateBegin = b.DateBegin → a.Organization ≤ b.Organization)) ∧
    (∃ sl, sortReports "domain" l = .ok sl ∧ sl.Perm l ∧
      sl.Pairwise fun a b => a.Domain ≤ b.Domain ∧
        (a.Domain = b.Domain → a.DateBegin ≤ b.DateBegin)) ∧
    (∃ sl, sortReports "organization" l = .ok sl ∧ sl.Perm l ∧
      sl.Pairwise fun a b => a.Organization ≤ b.Organization ∧
        (a.Organization = b.Organization → a.DateBegin ≤ b.DateBegin)) := by
  refine ⟨⟨l.mergeSort leDate, ?_, List.mergeSort_perm l leDate,
      (List.sorted_mergeSort leDate_trans leDate_total l).imp leDate_imp⟩,
    ⟨l.mergeSort leDomain, ?_, List.mergeSort_perm l leDomain,
      (List.sorted_mergeSort leDomain_trans leDomain_total l).imp leDomain_imp⟩,
    ⟨l.mergeSort leOrganization, ?_, List.mergeSort_perm l leOrganization,
      (List.sorted_mergeSort leOrganization_trans leOrganization_total l).imp
        leOrganization_imp⟩⟩
  · rw [sortReports, if_pos rfl]
  · rw [sortReports, if_neg (by decide), if_pos rfl]
  · rw [sortReports, if_neg (by decide), if_neg (by decide), if_pos rfl]

/-- C6 counterexample: with the unrecognized sort key `time` and an input
stream holding an invalid disposition token, the run aborts with the
*validation* error raised while aggregating that stream — the stream is
decoded and aggregated before the sort key is ever examined, so the
invalid key is not rejected before ingestion. -/
theorem c6_counterexample :
    runPipeline "time" [badDoc] = .error "unexpected disposition: invalid" ∧
    "unexpected disposition: invalid" ≠ "unknown sort option \"time\"" := by
  constructor
  · rfl
  · decide

/-- C6 (amended): an unrecognized sort key is a fatal configuration
error, but it is detected only after ingestion: with every stream valid,
the run fails with exactly the unknown-sort-option error after all
documents have been decoded and aggregated. -/
theorem c6_unknown_sort_key (key : String) (docs : List AggregateReport)
    (hkey : key ≠ "date" ∧ key ≠ "domain" ∧ key ≠ "organization")
    (hdocs : ∀ doc ∈ docs, ∀ rec ∈ doc.Records, validRec rec) :
    runPipeline key docs = .error ("unknown sort option \"" ++ key ++ "\"") := by
  obtain ⟨reps, h⟩ := parseAll_ok docs hdocs
  have hs : sortReports key reps = .error ("unknown sort option \"" ++ key ++ "\"") := by
    rw [sortReports, if_neg hkey.1, if_neg hkey.2.1, if_neg hkey.2.2]
  rw [runPipeline, h]
  show (match sortReports key reps with
    | Except.error e => Except.error e
    | Except.ok sorted => Except.ok (List.map Report.Format sorted).flatten) =
      Except.error ("unknown sort option \"" ++ key ++ "\"")
  rw [hs]

/-- C9 counterexample: the date text `99999999999999999999` is a decimal
numeral, yet the conversion yields neither Unix time 0 nor that many
seconds: `strconv.Atoi` reports a range error, whose returned
maximum-magnitude value `2^63 - 1` the code keeps after discarding the
error (and `-2^63` on the negative side). -/
theorem c9_counterexample :
    strVal (goTrimSpace overflowDoc.DateRangeBegin) = some 99999999999999999999 ∧
    AggregateReport.DateBegin overflowDoc = 9223372036854775807 ∧
    (9223372036854775807 : Int) = int64Max ∧
    (9223372036854775807 : Int) ≠ 0 ∧
    (9223372036854775807 : Int) ≠ 99999999999999999999 ∧
    AggregateReport.DateEnd overflowDoc = -9223372036854775808 :=
  ⟨by rfl, by rfl, by rfl, by decide, by decide, by rfl⟩

/-- C9 (amended): the conversion of a date-range field to a timestamp is
lenient and never fails.  Text that is not an optional-sign decimal
numeral yields the zero/epoch timestamp; a numeral whose value fits the
64-bit int range yields exactly that many seconds since the epoch
(interpreted as UTC downstream); a numeral beyond the range yields the
clamped maximum-magnitude value `2^63 - 1` (or `-2^63`). -/
theorem c9_lenient_dates (fb : AggregateReport) :
    (strVal (goTrimSpace fb.DateRangeBegin) = none → fb.DateBegin = 0) ∧
    (∀ n : Int, strVal (goTrimSpace fb.DateRangeBegin) = some n →
      int64Min ≤ n ∧ n ≤ int64Max → fb.DateBegin = n) ∧
    (∀ n : Int, strVal (goTrimSpace fb.DateRangeBegin) = some n →
      int64Max < n → fb.DateBegin = int64Max) ∧
    (∀ n : Int, strVal (goTrimSpace fb.DateRangeBegin) = some n →
      n < int64Min → fb.DateBegin = int64Min) ∧
    (strVal (goTrimSpace fb.DateRangeEnd) = none → fb.DateEnd = 0) ∧
    (∀ n : Int, strVal (goTrimSpace fb.DateRangeEnd) = some n →
      int64Min ≤ n ∧ n ≤ int64Max → fb.DateEnd = n) ∧
    (∀ n : Int, strVal (goTrimSpace fb.DateRangeEnd) = some n →
      int64Max < n → fb.DateEnd = int64Max) ∧
    (∀ n : Int, strVal (goTrimSpace fb.DateRangeEnd) = some n →
      n < int64Min → fb.DateEnd = int64Min) := by
  refine ⟨?_, ?_, ?_, ?_, ?_, ?_, ?_, ?_⟩
  · intro h
    rw [AggregateReport.DateBegin, goAtoi, h]
  · intro n hn hrange
    rw [AggregateReport.DateBegin, goAtoi, hn]
    dsimp only
    rw [if_neg (not_lt.mpr hrange.2), if_neg (not_lt.mpr hrange.1)]
  · intro n hn hgt
    rw [AggregateReport.DateBegin, goAtoi, hn]
    dsimp only
    rw [if_pos hgt]
  · intro n hn hlt
    rw [AggregateReport.DateBegin, goAtoi, hn]
    dsimp only
    rw [if_neg (not_lt.mpr (le_trans (le_of_lt hlt) int64Min_le_int64Max)),
      if_pos hlt]
  · intro h
    rw [AggregateReport.DateEnd, goAtoi, h]
  · intro n hn hrange
    rw [AggregateReport.DateEnd, goAtoi, hn]
    dsimp only
    rw [if_neg (not_lt.mpr hrange.2), if_neg (not_lt.mpr hrange.1)]
  · intro n hn hgt
    rw [AggregateReport.DateEnd, goAtoi, hn]
    dsimp only
    rw [if_pos hgt]
  · intro n hn hlt
    rw [AggregateReport.DateEnd, goAtoi, hn]
    dsimp only
    rw [if_neg (not_lt.mpr (le_trans (le_of_lt hlt) int64Min_le_int64Max)),
      if_pos hlt]

/-- C1 counterexample: the 24-hour UTC calendar representation of epoch
1700000000 is `2023-11-14 22:13:20`, but the emitter renders it with the
12-hour layout `2006-01-02 03:04:05` as `... 10:13:20` — the emitted
date columns are not in 24-hour format. -/
theorem c1_counterexample :
    specFormat24 1700000000 = "2023-11-14 22:13:20" ∧
    Report.Format reportGoogle = [lineGoogle] ∧
    goFormatDATEFMT 1700000000 ≠ specFormat24 1700000000 := by
  refine ⟨rfl, rfl, by decide⟩

/-- C1 (amended): every emitted line carries, as its first two columns,
the stored begin/end timestamps rendered by the UTC calendar
decomposition in `YYYY-MM-DD HH:MM:SS` shape with the hour reduced to the
12-hour clock (no AM/PM marker); epoch 1700000000 renders as
`2023-11-14 10:13:20`. -/
theorem c1_date_columns (r : Report) (s : String) (hs : s ∈ Report.Format r) :
    (∃ rest : String, s =
      padL 19 (goFormatDATEFMT r.DateBegin) ++ "," ++
      padL 19 (goFormatDATEFMT r.DateEnd) ++ "," ++ rest) ∧
    (∀ t : Int, goFormatDATEFMT t =
      match civilFromSecs t with
      | (y, m, d, hh, mm, ss) =>
        pad4 y.toNat ++ "-" ++ pad2 m ++ "-" ++ pad2 d ++ " " ++
          pad2 (hour12 hh) ++ ":" ++ pad2 mm ++ ":" ++ pad2 ss) ∧
    goFormatDATEFMT 1700000000 = "2023-11-14 10:13:20" := by
  refine ⟨?_, fun t => rfl, by decide⟩
  rw [Report.Format] at hs
  obtain ⟨kv, hkv, hseq⟩ := List.mem_map.mp hs
  refine ⟨padL 22 r.Organization ++ "," ++ padL 12 r.Domain ++ "," ++
      padL 20 kv.2.HeaderFrom ++ "," ++ padL 7 (toString kv.2.PolicyNone) ++ "," ++
      padL 7 (toString kv.2.PolicyQuarantine) ++ "," ++
      padL 7 (toString kv.2.PolicyReject) ++ "," ++
      padL 7 (toString kv.2.SPFPass) ++ "," ++ padL 7 (toString kv.2.DKIMPass) ++ "," ++
      padL 7 (toString kv.2.SPFFail) ++ "," ++ padL 7 (toString kv.2.DKIMFail), ?_⟩
  rw [← hseq, formatRow]
  simp only [String.append_assoc]

/-- Witness for C1: the concrete line of `reportGoogle` instantiates the
amended column property. -/
theorem c1_witness :
    lineGoogle ∈ Report.Format reportGoogle ∧
    ((∃ rest : String, lineGoogle =
        padL 19 (goFormatDATEFMT reportGoogle.DateBegin) ++ "," ++
        padL 19 (goFormatDATEFMT reportGoogle.DateEnd) ++ "," ++ rest) ∧
      (∀ t : Int, goFormatDATEFMT t =
        match civilFromSecs t with
        | (y, m, d, hh, mm, ss) =>
          pad4 y.toNat ++ "-" ++ pad2 m ++ "-" ++ pad2 d ++ " " ++
            pad2 (hour12 hh) ++ ":" ++ pad2 mm ++ ":" ++ pad2 ss) ∧
      goFormatDATEFMT 1700000000 = "2023-11-14 10:13:20") :=
  ⟨by decide, c1_date_columns reportGoogle lineGoogle (by decide)⟩

/-- Witness for C2: adding the valid record `recNone` to
`reportGoogle`. -/
theorem c2_witness :
    validRec recNone ∧
    ∃ r' row, Report.Add reportGoogle recNone = .ok r' ∧
      r'.Domains.lookup recNone.HeaderFrom = some row ∧
      row.PolicyNone = (oldRow reportGoogle recNone).PolicyNone +
        (if recNone.Disposition = "none" then recNone.Count else 0) ∧
      row.PolicyQuarantine = (oldRow reportGoogle recNone).PolicyQuarantine +
        (if recNone.Disposition = "quarantine" then recNone.Count else 0) ∧
      row.PolicyReject = (oldRow reportGoogle recNone).PolicyReject +
        (if recNone.Disposition = "reject" then recNone.Count else 0) ∧
      row.DKIMPass = (oldRow reportGoogle recNone).DKIMPass +
        (if recNone.EvalDKIM = "pass" then recNone.Count else 0) ∧
      row.DKIMFail = (oldRow reportGoogle recNone).DKIMFail +
        (if recNone.EvalDKIM = "fail" then recNone.Count else 0) ∧
      row.SPFPass = (oldRow reportGoogle recNone).SPFPass +
        (if recNone.EvalSPF = "pass" then recNone.Count else 0) ∧
      row.SPFFail = (oldRow reportGoogle recNone).SPFFail +
        (if recNone.EvalSPF = "fail" then recNone.Count else 0) ∧
      ∀ k, k ≠ recNone.HeaderFrom →
        r'.Domains.lookup k = reportGoogle.Domains.lookup k :=
  ⟨by decide, c2_add_increments reportGoogle recNone (by decide)⟩

/-- Witness for C3: the spec's concrete two-record document. -/
theorem c3_witness :
    (∀ rec ∈ docGoogle.Records, validRec rec) ∧
    ∃ rep, parse docGoogle = .ok rep ∧
      totalDisp rep.Domains = countSum docGoogle.Records ∧
      ∀ d, lookupDispSum rep.Domains d =
        countSum (docGoogle.Records.filter fun rec => rec.HeaderFrom == d) :=
  ⟨by decide, c3_disposition_sums docGoogle (by decide)⟩

/-- Witness for C6: the unrecognized key `time` over one valid
document. -/
theorem c6_witness :
    (("time" : String) ≠ "date" ∧ ("time" : String) ≠ "domain" ∧
      ("time" : String) ≠ "organization") ∧
    (∀ doc ∈ [docGoogle], ∀ rec ∈ doc.Records, validRec rec) ∧
    runPipeline "time" [docGoogle] =
      .error ("unknown sort option \"" ++ "time" ++ "\"") :=
  ⟨by decide, by decide,
    c6_unknown_sort_key "time" [docGoogle] (by decide) (by decide)⟩

/-- Witness for C7: the overflow-free reachable state holding the row of
`recNone`. -/
theorem c7_int64_witness :
    (∀ kv ∈ reportAfterNone.Domains, rowNonneg kv.2) ∧
    ∀ rec r', 0 ≤ rec.Count → rowMax64 (updRow (oldRow reportAfterNone rec) rec) →
      Report.Add64 reportAfterNone rec = .ok r' →
      ∀ k, rowLe ((reportAfterNone.Domains.lookup k).getD (emptyRow k))
        ((r'.Domains.lookup k).getD (emptyRow k)) :=
  c7_int64_monotone reportAfterNone
    (@Reachable64.step
      { DateBegin := 1700000000, DateEnd := 1700003600, Domains := [],
        Organization := "Google", Domain := "google.com" }
      recNone reportAfterNone
      (Reachable64.init 1700000000 1700003600 "Google" "google.com")
      (by decide) (by decide) (by rfl))

/-- Witness for C8: the zero-record document. -/
theorem c8_witness :
    emptyDoc.Records = [] ∧
    ∃ rep, parse emptyDoc = .ok rep ∧ rep.Domains = [] ∧ Report.Format rep = [] :=
  ⟨rfl, c8_empty_document emptyDoc rfl⟩

/-- Witness for C10: the parsed spec document and its aggregate. -/
theorem c10_witness :
    parse docGoogle = .ok reportGoogle ∧
    ((∀ k row, reportGoogle.Domains.lookup k = some row → row.HeaderFrom = k) ∧
      ∀ kv ∈ reportGoogle.Domains, padL 20 kv.2.HeaderFrom = padL 20 kv.1) :=
  ⟨by rfl, c10_rows_keyed docGoogle reportGoogle (by rfl)⟩

end DMARC
